import Mathlib

/-!
Formal model of the AdaGrad optimizer of `ada_grad.hpp`, together with the
stochastic gradient descent driver (`SGD`) and the AdaGrad update policy
(`AdaGradUpdate`) that the wrapper instantiates; the driver and the update
policy are modelled from the specification, since only their declarations
appear in the header.  Real-valued quantities are modelled by rationals, and
the square root is an abstract function parameter `sq`: none of the
properties below depends on its value.  The driver loop carries explicit
fuel; a result of `none` means the loop did not terminate within the fuel.
-/

/-- A dense parameter vector of dimension `d` (the iterate, a gradient, or
the squared-gradient accumulator). -/
abbrev Vec (d : ℕ) := Fin d → ℚ

/-- A decomposable objective: number of additive terms, per-term scalar
evaluation, and per-term gradient, as in the `DecomposableFunctionType`
concept documented in `ada_grad.hpp`. -/
structure Objective (d : ℕ) where
  numFunctions : ℕ
  evaluate : Vec d → ℕ → ℚ
  gradient : Vec d → ℕ → Vec d

/-- Total objective value: the sum of all term evaluations, accumulated in
index order. -/
def Objective.fullEvaluate {d : ℕ} (f : Objective d) (x : Vec d) : ℚ :=
  (List.range f.numFunctions).foldl (fun s i => s + f.evaluate x i) 0

/-- Modelled from the spec: the `AdaGradUpdate` policy state of
`ada_grad_update.hpp` (missing from the sources) — the configured epsilon
and the per-coordinate squared-gradient accumulator. -/
structure AdaGradUpdate (d : ℕ) where
  epsilon : ℚ
  accumulator : Vec d
deriving DecidableEq

/-- Modelled from the spec: construction of the update policy; the
accumulator is initialized to the configured epsilon elementwise (not to
zero). -/
def AdaGradUpdate.init (d : ℕ) (epsilon : ℚ) : AdaGradUpdate d :=
  ⟨epsilon, fun _ => epsilon⟩

/-- Modelled from the spec: one application of the AdaGrad update rule.
First `accumulator[k] += g[k]^2` for every coordinate, then the iterate
moves by `-stepSize * g[k] / (sq(accumulator[k]) + epsilon)` using the
already-updated accumulator.  Returns the new policy state and the new
iterate. -/
def AdaGradUpdate.update {d : ℕ} (sq : ℚ → ℚ) (stepSize : ℚ)
    (p : AdaGradUpdate d) (x g : Vec d) : AdaGradUpdate d × Vec d :=
  (⟨p.epsilon, fun k => p.accumulator k + g k ^ 2⟩,
   fun k => x k - stepSize * g k / (sq (p.accumulator k + g k ^ 2) + p.epsilon))

/-- Fold of the update rule over a list of (iterate, gradient) pairs,
tracking only the policy state.  This is the trace of policy states a run
can produce: updates are the only operation ever applied to the policy. -/
def AdaGradUpdate.applyAll {d : ℕ} (sq : ℚ → ℚ) (stepSize : ℚ)
    (p : AdaGradUpdate d) : List (Vec d × Vec d) → AdaGradUpdate d
  | [] => p
  | (x, g) :: rest =>
      AdaGradUpdate.applyAll sq stepSize (AdaGradUpdate.update sq stepSize p x g).1 rest

/-- Absolute value on the rationals, written out so that concrete runs of
the driver reduce by evaluation. -/
def ratAbs (q : ℚ) : ℚ := if q < 0 then -q else q

/-- Errors raised synchronously by `Optimize`. -/
inductive SGDError where
  | configurationError
deriving DecidableEq

/-- Modelled from the spec: the state of the `SGD` driver built by the
`AdaGrad` constructor — the bound objective, the configuration, and the
update policy instance. -/
structure SGD (d : ℕ) where
  function : Objective d
  stepSize : ℚ
  maxIterations : ℕ
  tolerance : ℚ
  shuffle : Bool
  updatePolicy : AdaGradUpdate d

/-- Result of a terminating driver loop: returned objective value, final
iterate, final update-policy state, and the total number of sampled-term
updates performed. -/
structure RunResult (d : ℕ) where
  value : ℚ
  iterate : Vec d
  policy : AdaGradUpdate d
  count : ℕ
deriving DecidableEq

/-- Modelled from the spec: the index sampled at global step `t` — drawn
from the current epoch's permutation (`perms epoch position`) when
shuffling, from the identity order otherwise. -/
def sampleIndex {d : ℕ} (perms : ℕ → ℕ → ℕ) (s : SGD d) (t : ℕ) : ℕ :=
  if s.shuffle then
    perms (t / s.function.numFunctions) (t % s.function.numFunctions)
  else
    t % s.function.numFunctions

/-- Modelled from the spec: the main SGD loop.  `t` counts sampled-term
updates; the iteration-limit test runs at every loop top, the sampled
index comes from `sampleIndex`, and the tolerance test runs only after the
last index of an epoch.  On convergence the running objective from before
the epoch is returned. -/
def sgdLoop (sq : ℚ → ℚ) (perms : ℕ → ℕ → ℕ) {d : ℕ} (s : SGD d) :
    ℕ → ℕ → ℚ → Vec d → AdaGradUpdate d → Option (RunResult d)
  | 0, _, _, _, _ => none
  | fuel + 1, t, cur, x, pol =>
    if s.maxIterations ≠ 0 ∧ s.maxIterations ≤ t then
      some ⟨cur, x, pol, t⟩
    else
      let g := s.function.gradient x (sampleIndex perms s t)
      let pol2 := (AdaGradUpdate.update sq s.stepSize pol x g).1
      let x2 := (AdaGradUpdate.update sq s.stepSize pol x g).2
      if (t + 1) % s.function.numFunctions = 0 then
        let newObj := s.function.fullEvaluate x2
        if ratAbs (cur - newObj) < s.tolerance then
          some ⟨cur, x2, pol2, t + 1⟩
        else
          sgdLoop sq perms s fuel (t + 1) newObj x2 pol2
      else
        sgdLoop sq perms s fuel (t + 1) cur x2 pol2

/-- Modelled from the spec: `SGD::Optimize`, starting the loop from a given
initial policy state.  A zero-term objective fails immediately with a
configuration error, leaving the iterate and the driver state unchanged.
Otherwise the full-batch objective seeds the convergence comparison and the
loop starts at `t = 0`.  Returns the result (or error), the final iterate,
and the driver state with the final policy written back. -/
def SGD.OptimizeFrom (sq : ℚ → ℚ) (perms : ℕ → ℕ → ℕ) (fuel : ℕ) {d : ℕ}
    (s : SGD d) (pol : AdaGradUpdate d) (x : Vec d) :
    Option (Except SGDError (ℚ × ℕ) × Vec d × SGD d) :=
  if s.function.numFunctions = 0 then
    some (.error .configurationError, x, s)
  else
    match sgdLoop sq perms s fuel 0 (s.function.fullEvaluate x) x pol with
    | none => none
    | some r => some (.ok (r.value, r.count), r.iterate, { s with updatePolicy := r.policy })

/-- Modelled from the spec: `SGD::Optimize` proper — the loop starts from
the policy state currently stored in the driver. -/
def SGD.Optimize (sq : ℚ → ℚ) (perms : ℕ → ℕ → ℕ) (fuel : ℕ) {d : ℕ}
    (s : SGD d) (x : Vec d) :
    Option (Except SGDError (ℚ × ℕ) × Vec d × SGD d) :=
  SGD.OptimizeFrom sq perms fuel s s.updatePolicy x

/-- The `AdaGrad` wrapper class of `ada_grad.hpp`.  Besides the inner `SGD`
object it declares six private shadow members (`function`, `stepSize`,
`epsilon`, `maxIterations`, `tolerance`, `shuffle`) that its constructor
never initializes. -/
structure AdaGrad (d : ℕ) where
  function : Objective d
  stepSize : ℚ
  epsilon : ℚ
  maxIterations : ℕ
  tolerance : ℚ
  shuffle : Bool
  optimizer : SGD d

/-- Indeterminate contents of the shadow members the constructor leaves
uninitialized (in particular the `function` reference it never binds). -/
structure ShadowJunk (d : ℕ) where
  function : Objective d
  stepSize : ℚ
  epsilon : ℚ
  maxIterations : ℕ
  tolerance : ℚ
  shuffle : Bool

/-- The `AdaGrad` constructor: builds an `AdaGradUpdate` from `epsilon` and
an inner `SGD` from the objective and the parameters.  The shadow members
are never written, so they keep their indeterminate values `j`. -/
def AdaGrad.new {d : ℕ} (j : ShadowJunk d) (function : Objective d)
    (stepSize : ℚ) (epsilon : ℚ) (maxIterations : ℕ) (tolerance : ℚ)
    (shuffle : Bool) : AdaGrad d :=
  { function := j.function
    stepSize := j.stepSize
    epsilon := j.epsilon
    maxIterations := j.maxIterations
    tolerance := j.tolerance
    shuffle := j.shuffle
    optimizer :=
      ⟨function, stepSize, maxIterations, tolerance, shuffle,
       AdaGradUpdate.init d epsilon⟩ }

/-- Default step size of the constructor signature. -/
def defaultStepSize : ℚ := 1 / 100

/-- Default epsilon of the constructor signature. -/
def defaultEpsilon : ℚ := 1 / 100000000

/-- Default iteration limit of the constructor signature. -/
def defaultMaxIterations : ℕ := 100000

/-- Default tolerance of the constructor signature. -/
def defaultTolerance : ℚ := 1 / 100000

/-- Default shuffling flag of the constructor signature. -/
def defaultShuffle : Bool := true

/-- The constructor invoked with every defaulted argument. -/
def AdaGrad.newDefault {d : ℕ} (j : ShadowJunk d) (function : Objective d) :
    AdaGrad d :=
  AdaGrad.new j function defaultStepSize defaultEpsilon defaultMaxIterations
    defaultTolerance defaultShuffle

/-- Accessor `StepSize()`: delegates to the inner optimizer. -/
def AdaGrad.StepSize {d : ℕ} (a : AdaGrad d) : ℚ := a.optimizer.stepSize

/-- Writing through `StepSize()`'s reference. -/
def AdaGrad.setStepSize {d : ℕ} (a : AdaGrad d) (v : ℚ) : AdaGrad d :=
  { a with optimizer := { a.optimizer with stepSize := v } }

/-- Accessor `Epsilon()`: delegates to the update policy held by the inner
optimizer. -/
def AdaGrad.Epsilon {d : ℕ} (a : AdaGrad d) : ℚ :=
  a.optimizer.updatePolicy.epsilon

/-- Writing through `Epsilon()`'s reference. -/
def AdaGrad.setEpsilon {d : ℕ} (a : AdaGrad d) (v : ℚ) : AdaGrad d :=
  { a with optimizer :=
    { a.optimizer with updatePolicy :=
      { a.optimizer.updatePolicy with epsilon := v } } }

/-- Accessor `MaxIterations()`: delegates to the inner optimizer. -/
def AdaGrad.MaxIterations {d : ℕ} (a : AdaGrad d) : ℕ :=
  a.optimizer.maxIterations

/-- Writing through `MaxIterations()`'s reference. -/
def AdaGrad.setMaxIterations {d : ℕ} (a : AdaGrad d) (v : ℕ) : AdaGrad d :=
  { a with optimizer := { a.optimizer with maxIterations := v } }

/-- Accessor `Tolerance()`: delegates to the inner optimizer. -/
def AdaGrad.Tolerance {d : ℕ} (a : AdaGrad d) : ℚ := a.optimizer.tolerance

/-- Writing through `Tolerance()`'s reference. -/
def AdaGrad.setTolerance {d : ℕ} (a : AdaGrad d) (v : ℚ) : AdaGrad d :=
  { a with optimizer := { a.optimizer with tolerance := v } }

/-- Accessor `Shuffle()`: delegates to the inner optimizer. -/
def AdaGrad.Shuffle {d : ℕ} (a : AdaGrad d) : Bool := a.optimizer.shuffle

/-- Writing through `Shuffle()`'s reference. -/
def AdaGrad.setShuffle {d : ℕ} (a : AdaGrad d) (v : Bool) : AdaGrad d :=
  { a with optimizer := { a.optimizer with shuffle := v } }

/-- Accessor `Function()`: returns the shadow `function` member, which no
constructor ever binds. -/
def AdaGrad.Function {d : ℕ} (a : AdaGrad d) : Objective d := a.function

/-- `AdaGrad::Optimize`: returns exactly the inner optimizer's `Optimize`
on the iterate, with the mutated inner state written back into the
wrapper. -/
def AdaGrad.Optimize (sq : ℚ → ℚ) (perms : ℕ → ℕ → ℕ) (fuel : ℕ) {d : ℕ}
    (a : AdaGrad d) (x : Vec d) :
    Option (Except SGDError (ℚ × ℕ) × Vec d × AdaGrad d) :=
  (SGD.Optimize sq perms fuel a.optimizer x).map
    (fun r => (r.1, r.2.1, { a with optimizer := r.2.2 }))

/-- `AdaGrad::Optimize` run from an explicitly supplied initial policy
state instead of the one stored in the wrapper. -/
def AdaGrad.OptimizeWith (sq : ℚ → ℚ) (perms : ℕ → ℕ → ℕ) (fuel : ℕ)
    {d : ℕ} (a : AdaGrad d) (pol : AdaGradUpdate d) (x : Vec d) :
    Option (Except SGDError (ℚ × ℕ) × Vec d × AdaGrad d) :=
  (SGD.OptimizeFrom sq perms fuel a.optimizer pol x).map
    (fun r => (r.1, r.2.1, { a with optimizer := r.2.2 }))

/-- The identity as the abstract square-root parameter, for concrete runs. -/
def sq0 : ℚ → ℚ := fun q => q

/-- The constantly-zero abstract square root, for concrete runs. -/
def sqZero : ℚ → ℚ := fun _ => 0

/-- The identity permutation stream. -/
def perms0 : ℕ → ℕ → ℕ := fun _ p => p

/-- A second, different permutation stream. -/
def permsAlt : ℕ → ℕ → ℕ := fun e p => e + p

/-- A two-term objective whose terms and gradients are identically zero. -/
def oneObj : Objective 1 := ⟨2, fun _ _ => 0, fun _ _ _ => 0⟩

/-- Arbitrary contents for the uninitialized shadow members. -/
def junk0 : ShadowJunk 1 := ⟨oneObj, 0, 0, 0, 0, false⟩

/-- A concrete optimizer over `oneObj`: step size 1/2, epsilon 1, at most 5
iterations, tolerance 1/2, no shuffling. -/
def a0 : AdaGrad 1 := AdaGrad.new junk0 oneObj (1 / 2) 1 5 (1 / 2) false

/-- A concrete starting iterate. -/
def x0 : Vec 1 := fun _ => 1

/-- The optimizer state after the run of `a0` from `x0`. -/
def a0After : AdaGrad 1 :=
  { a0 with optimizer := { a0.optimizer with updatePolicy := ⟨1, fun _ => 1⟩ } }

/-- Helper: `applyAll` leaves the policy's epsilon unchanged. -/
theorem applyAll_epsilon {d : ℕ} (sq : ℚ → ℚ) (st : ℚ) :
    ∀ (l : List (Vec d × Vec d)) (p : AdaGradUpdate d),
      (AdaGradUpdate.applyAll sq st p l).epsilon = p.epsilon := by
  intro l
  induction l with
  | nil => intro p; rfl
  | cons hd tl ih =>
    intro p
    obtain ⟨x, g⟩ := hd
    simpa [AdaGradUpdate.applyAll] using ih _

/-- Helper: `applyAll` over an appended list is sequential composition. -/
theorem applyAll_append {d : ℕ} (sq : ℚ → ℚ) (st : ℚ) :
    ∀ (l1 l2 : List (Vec d × Vec d)) (p : AdaGradUpdate d),
      AdaGradUpdate.applyAll sq st p (l1 ++ l2)
        = AdaGradUpdate.applyAll sq st (AdaGradUpdate.applyAll sq st p l1) l2 := by
  intro l1
  induction l1 with
  | nil => intro l2 p; rfl
  | cons hd tl ih =>
    intro l2 p
    obtain ⟨x, g⟩ := hd
    simpa [AdaGradUpdate.applyAll] using ih _ _

/-- Helper: each update only adds a square, so `applyAll` never decreases
any accumulator coordinate. -/
theorem applyAll_accumulator_le {d : ℕ} (sq : ℚ → ℚ) (st : ℚ) :
    ∀ (l : List (Vec d × Vec d)) (p : AdaGradUpdate d) (k : Fin d),
      p.accumulator k ≤ (AdaGradUpdate.applyAll sq st p l).accumulator k := by
  intro l
  induction l with
  | nil => intro p k; exact le_refl _
  | cons hd tl ih =>
    intro p k
    obtain ⟨x, g⟩ := hd
    have h1 : p.accumulator k
        ≤ (AdaGradUpdate.update sq st p x g).1.accumulator k := by
      simp [AdaGradUpdate.update]
      positivity
    calc p.accumulator k ≤ (AdaGradUpdate.update sq st p x g).1.accumulator k := h1
      _ ≤ _ := by simpa [AdaGradUpdate.applyAll] using ih _ k

/-- Helper: any terminating run of the loop produces its final policy by a
sequence of updates applied to the initial policy — the policy is never
reset inside a run. -/
theorem sgdLoop_policy_applyAll (sq : ℚ → ℚ) (perms : ℕ → ℕ → ℕ) {d : ℕ}
    (s : SGD d) :
    ∀ (fuel t : ℕ) (cur : ℚ) (x : Vec d) (pol : AdaGradUpdate d)
      (r : RunResult d),
      sgdLoop sq perms s fuel t cur x pol = some r →
      ∃ l, r.policy = AdaGradUpdate.applyAll sq s.stepSize pol l := by
  intro fuel
  induction fuel with
  | zero => intro t cur x pol r h; simp [sgdLoop] at h
  | succ n ih =>
    intro t cur x pol r h
    rw [sgdLoop] at h
    split at h
    · cases h
      exact ⟨[], rfl⟩
    · dsimp only at h
      split at h
      · split at h
        · cases h
          refine ⟨[(x, s.function.gradient x (sampleIndex perms s t))], ?_⟩
          simp [AdaGradUpdate.applyAll]
        · obtain ⟨l, hl⟩ := ih _ _ _ _ _ h
          exact ⟨(x, s.function.gradient x (sampleIndex perms s t)) :: l,
            by simpa [AdaGradUpdate.applyAll] using hl⟩
      · obtain ⟨l, hl⟩ := ih _ _ _ _ _ h
        exact ⟨(x, s.function.gradient x (sampleIndex perms s t)) :: l,
          by simpa [AdaGradUpdate.applyAll] using hl⟩

/-- Helper: a terminating loop stops either at an epoch boundary (count of
updates divisible by the term count) or at the iteration limit. -/
theorem sgdLoop_count (sq : ℚ → ℚ) (perms : ℕ → ℕ → ℕ) {d : ℕ} (s : SGD d) :
    ∀ (fuel t : ℕ) (cur : ℚ) (x : Vec d) (pol : AdaGradUpdate d)
      (r : RunResult d),
      sgdLoop sq perms s fuel t cur x pol = some r →
      s.function.numFunctions ∣ r.count
        ∨ (s.maxIterations ≠ 0 ∧ r.count = max t s.maxIterations) := by
  intro fuel
  induction fuel with
  | zero => intro t cur x pol r h; simp [sgdLoop] at h
  | succ n ih =>
    intro t cur x pol r h
    rw [sgdLoop] at h
    split at h
    · rename_i hstop
      cases h
      refine Or.inr ⟨hstop.1, ?_⟩
      show t = max t s.maxIterations
      have h2 := hstop.2
      omega
    · rename_i hgo
      dsimp only at h
      split at h
      · rename_i hepoch
        split at h
        · cases h
          exact Or.inl (Nat.dvd_of_mod_eq_zero hepoch)
        · rcases ih _ _ _ _ _ h with h1 | ⟨hne, hmax⟩
          · exact Or.inl h1
          · refine Or.inr ⟨hne, ?_⟩
            rw [hmax]
            have ht : t < s.maxIterations := by
              by_contra hh
              exact hgo ⟨hne, Nat.le_of_not_lt hh⟩
            omega
      · rcases ih _ _ _ _ _ h with h1 | ⟨hne, hmax⟩
        · exact Or.inl h1
        · refine Or.inr ⟨hne, ?_⟩
          rw [hmax]
          have ht : t < s.maxIterations := by
            by_contra hh
            exact hgo ⟨hne, Nat.le_of_not_lt hh⟩
          omega

/-- Helper: with a nonzero iteration limit, the count of updates at
termination never exceeds the limit (starting from step counter `t`). -/
theorem sgdLoop_count_le (sq : ℚ → ℚ) (perms : ℕ → ℕ → ℕ) {d : ℕ}
    (s : SGD d) :
    ∀ (fuel t : ℕ) (cur : ℚ) (x : Vec d) (pol : AdaGradUpdate d)
      (r : RunResult d),
      sgdLoop sq perms s fuel t cur x pol = some r →
      s.maxIterations ≠ 0 → r.count ≤ max t s.maxIterations := by
  intro fuel
  induction fuel with
  | zero => intro t cur x pol r h; simp [sgdLoop] at h
  | succ n ih =>
    intro t cur x pol r h hne
    rw [sgdLoop] at h
    split at h
    · cases h
      show t ≤ max t s.maxIterations
      omega
    · rename_i hgo
      have ht : t < s.maxIterations := by
        by_contra hh
        exact hgo ⟨hne, Nat.le_of_not_lt hh⟩
      dsimp only at h
      split at h
      · split at h
        · cases h
          show t + 1 ≤ max t s.maxIterations
          omega
        · have := ih _ _ _ _ _ h hne
          omega
      · have := ih _ _ _ _ _ h hne
        omega

/-- Helper: with shuffling disabled, the loop's behaviour is independent of
the permutation stream. -/
theorem sgdLoop_shuffle_false (sq : ℚ → ℚ) (p1 p2 : ℕ → ℕ → ℕ) {d : ℕ}
    (s : SGD d) (hs : s.shuffle = false) :
    ∀ (fuel t : ℕ) (cur : ℚ) (x : Vec d) (pol : AdaGradUpdate d),
      sgdLoop sq p1 s fuel t cur x pol = sgdLoop sq p2 s fuel t cur x pol := by
  intro fuel
  induction fuel with
  | zero => intro t cur x pol; rfl
  | succ n ih =>
    intro t cur x pol
    rw [sgdLoop, sgdLoop]
    have hi : sampleIndex p1 s t = sampleIndex p2 s t := by
      simp [sampleIndex, hs]
    rw [hi]
    split
    · rfl
    · dsimp only
      split
      · split
        · rfl
        · exact ih _ _ _ _
      · exact ih _ _ _ _

/-- A one-term objective whose value is the first coordinate and whose
gradient is constantly one. -/
def divObj : Objective 1 := ⟨1, fun x _ => x 0, fun _ _ _ => 1⟩

/-- Arbitrary shadow contents for the divergent instances. -/
def junkD : ShadowJunk 1 := ⟨divObj, 0, 0, 0, 0, false⟩

/-- An optimizer over `divObj` with no iteration limit: step size 1,
epsilon 1, tolerance 1, no shuffling.  With the constant-zero square root
every update moves the iterate by exactly one, so the objective drop per
epoch stays equal to the tolerance and the run never converges. -/
def aDiv : AdaGrad 1 := AdaGrad.new junkD divObj 1 1 0 1 false

/-- Helper: the total objective of `divObj` is the first coordinate. -/
theorem divObj_fullEvaluate (y : Vec 1) :
    Objective.fullEvaluate divObj y = y 0 := by
  simp [Objective.fullEvaluate, divObj, List.range_succ]

/-- Helper: the loop over `divObj` with no iteration limit never
terminates — every epoch changes the objective by exactly 1, which the
strict tolerance test (`< 1`) never accepts. -/
theorem divLoop_none :
    ∀ (fuel t : ℕ) (x : Vec 1) (pol : AdaGradUpdate 1), pol.epsilon = 1 →
      sgdLoop sqZero perms0 aDiv.optimizer fuel t
        (Objective.fullEvaluate divObj x) x pol = none := by
  intro fuel
  induction fuel with
  | zero => intro t x pol hp; rfl
  | succ n ih =>
    intro t x pol hp
    have hcond : ¬(aDiv.optimizer.maxIterations ≠ 0
        ∧ aDiv.optimizer.maxIterations ≤ t) := by
      simp [aDiv, AdaGrad.new]
    rw [sgdLoop, if_neg hcond]
    dsimp only
    rw [if_pos (show (t + 1) % aDiv.optimizer.function.numFunctions = 0
      from Nat.mod_one (t + 1))]
    rw [if_neg ?htol]
    case htol =>
      show ¬ ratAbs (Objective.fullEvaluate divObj x - _) < _
      rw [show aDiv.optimizer.function = divObj from rfl,
        divObj_fullEvaluate, divObj_fullEvaluate]
      simp only [AdaGradUpdate.update, divObj, sqZero, hp, ratAbs,
        aDiv, AdaGrad.new]
      norm_num
    exact ih (t + 1) _ _ hp

/-- A zero-term objective. -/
def zeroObj : Objective 1 := ⟨0, fun _ _ => 0, fun _ _ _ => 0⟩

/-- Arbitrary shadow contents for the zero-term instance. -/
def junkZ : ShadowJunk 1 := ⟨zeroObj, 0, 0, 0, 0, false⟩

/-- An optimizer over the zero-term objective. -/
def aZero : AdaGrad 1 := AdaGrad.new junkZ zeroObj 1 1 5 1 true

/-- C1: one application of the AdaGrad update policy first adds `g[k]^2` to
every accumulator coordinate and then subtracts
`stepSize * g[k] / (sqrt(accumulator[k]) + epsilon)` from the iterate,
where the denominator reads the already-updated accumulator. -/
theorem adaGradUpdate_accumulates_then_steps (d : ℕ) (sq : ℚ → ℚ)
    (stepSize : ℚ) (p : AdaGradUpdate d) (x g : Vec d) (k : Fin d) :
    (AdaGradUpdate.update sq stepSize p x g).1.accumulator k
        = p.accumulator k + g k ^ 2
    ∧ (AdaGradUpdate.update sq stepSize p x g).1.epsilon = p.epsilon
    ∧ (AdaGradUpdate.update sq stepSize p x g).2 k
        = x k - stepSize * g k
            / (sq (p.accumulator k + g k ^ 2) + p.epsilon) :=
  ⟨rfl, rfl, rfl⟩

/-- C2: a successful `Optimize` run terminates only at an epoch boundary
(total count of sampled-term updates divisible by the number of terms) or
exactly at the iteration limit — never strictly between epoch boundaries
by the tolerance test. -/
theorem optimize_stops_on_epoch_boundary_or_limit (d : ℕ) (sq : ℚ → ℚ)
    (perms : ℕ → ℕ → ℕ) (fuel : ℕ) (a : AdaGrad d) (x : Vec d) (v : ℚ)
    (c : ℕ) (x' : Vec d) (a' : AdaGrad d)
    (h : AdaGrad.Optimize sq perms fuel a x = some (.ok (v, c), x', a')) :
    a.optimizer.function.numFunctions ∣ c ∨ c = a.MaxIterations := by
  unfold AdaGrad.Optimize SGD.Optimize SGD.OptimizeFrom at h
  split at h
  · simp at h
  · cases hrun : sgdLoop sq perms a.optimizer fuel 0
        (a.optimizer.function.fullEvaluate x) x a.optimizer.updatePolicy with
    | none => rw [hrun] at h; simp at h
    | some r =>
      rw [hrun] at h
      simp only [Option.map_some', Prod.mk.injEq, Except.ok.injEq,
        Option.some.injEq] at h
      obtain ⟨⟨hv, hc⟩, hx, ha⟩ := h
      rcases sgdLoop_count sq perms a.optimizer fuel 0 _ _ _ _ hrun
        with hd | ⟨hne, hm⟩
      · exact Or.inl (hc ▸ hd)
      · refine Or.inr ?_
        rw [← hc, hm]
        show max 0 a.optimizer.maxIterations = a.optimizer.maxIterations
        omega

/-- Witness for C2: the concrete two-term run of `a0` from `x0` converges
after one full epoch, i.e. after 2 sampled updates. -/
theorem optimize_stops_on_epoch_boundary_or_limit_witness :
    a0.optimizer.function.numFunctions ∣ 2 ∨ 2 = AdaGrad.MaxIterations a0 :=
  optimize_stops_on_epoch_boundary_or_limit 1 sq0 perms0 10 a0 x0 _ 2 _ _
    (by with_unfolding_all rfl)

/-- C3: the accumulator equals the configured epsilon elementwise at
construction, one update only adds the square of the gradient elementwise,
any later time dominates any earlier time elementwise, and the accumulator
never drops below the epsilon floor. -/
theorem accumulator_epsilon_floor_and_monotone (d : ℕ) (sq : ℚ → ℚ)
    (st eps : ℚ) (p : AdaGradUpdate d) (x g : Vec d)
    (l1 l2 : List (Vec d × Vec d)) (k : Fin d) :
    (AdaGradUpdate.init d eps).accumulator k = eps
    ∧ (AdaGradUpdate.update sq st p x g).1.accumulator k
        = p.accumulator k + g k ^ 2
    ∧ (AdaGradUpdate.applyAll sq st p l1).accumulator k
        ≤ (AdaGradUpdate.applyAll sq st p (l1 ++ l2)).accumulator k
    ∧ eps ≤ (AdaGradUpdate.applyAll sq st
        (AdaGradUpdate.init d eps) l1).accumulator k := by
  refine ⟨rfl, rfl, ?_, ?_⟩
  · rw [applyAll_append]
    exact applyAll_accumulator_le sq st l2 _ k
  · exact applyAll_accumulator_le sq st l1 (AdaGradUpdate.init d eps) k

/-- C4: a zero-term objective makes `Optimize` fail immediately with a
configuration error; the iterate and the optimizer state come back
unchanged and no update step is applied. -/
theorem optimize_zero_terms_configuration_error (d : ℕ) (sq : ℚ → ℚ)
    (perms : ℕ → ℕ → ℕ) (fuel : ℕ) (a : AdaGrad d) (x : Vec d)
    (h : a.optimizer.function.numFunctions = 0) :
    AdaGrad.Optimize sq perms fuel a x
      = some (.error .configurationError, x, a) := by
  unfold AdaGrad.Optimize SGD.Optimize SGD.OptimizeFrom
  rw [if_pos h]
  rfl

/-- Witness for C4 at the concrete zero-term objective. -/
theorem optimize_zero_terms_configuration_error_witness :
    aZero.optimizer.function.numFunctions = 0
    ∧ AdaGrad.Optimize sq0 perms0 3 aZero x0
        = some (.error .configurationError, x0, aZero) :=
  ⟨rfl, optimize_zero_terms_configuration_error 1 sq0 perms0 3 aZero x0 rfl⟩

/-- A two-term variant of `divObj`: value is the first coordinate, gradient
constantly one. -/
def divObj2 : Objective 1 := ⟨2, fun x _ => x 0, fun _ _ _ => 1⟩

/-- Arbitrary shadow contents for the two-term divergent instance. -/
def junkD2 : ShadowJunk 1 := ⟨divObj2, 0, 0, 0, 0, false⟩

/-- An optimizer over `divObj2` with iteration limit 3 — an odd limit over
an even number of terms, so hitting it stops the run mid-epoch. -/
def aDiv3 : AdaGrad 1 := AdaGrad.new junkD2 divObj2 1 1 3 1 false

/-- A concrete starting iterate for the limited run. -/
def xNine : Vec 1 := fun _ => 9

/-- C5: the iteration limit bounds the number of individual sampled-term
updates; a run with `maxIterations = 0` can only stop via the
epoch-boundary tolerance test, and on a non-converging objective it never
stops at any fuel; and the limit counts single points rather than epochs —
with two terms and limit 3 the run performs exactly 3 updates, stopping
mid-epoch. -/
theorem maxIterations_bounds_updates_and_zero_unbounded (d : ℕ)
    (sq : ℚ → ℚ) (perms : ℕ → ℕ → ℕ) (fuel : ℕ) (a : AdaGrad d)
    (x : Vec d) (v : ℚ) (c : ℕ) (x' : Vec d) (a' : AdaGrad d) :
    (AdaGrad.Optimize sq perms fuel a x = some (.ok (v, c), x', a') →
        a.MaxIterations ≠ 0 → c ≤ a.MaxIterations)
    ∧ (AdaGrad.Optimize sq perms fuel a x = some (.ok (v, c), x', a') →
        a.MaxIterations = 0 → a.optimizer.function.numFunctions ∣ c)
    ∧ (∀ (fuel2 : ℕ) (y : Vec 1),
        AdaGrad.Optimize sqZero perms0 fuel2 aDiv y = none)
    ∧ ((AdaGrad.Optimize sqZero perms0 20 aDiv3 xNine).map
        (fun r => r.1.map Prod.snd) = some (.ok 3)) := by
  refine ⟨?_, ?_, ?_, ?_⟩
  · intro h hne
    unfold AdaGrad.Optimize SGD.Optimize SGD.OptimizeFrom at h
    split at h
    · simp at h
    · cases hrun : sgdLoop sq perms a.optimizer fuel 0
          (a.optimizer.function.fullEvaluate x) x
          a.optimizer.updatePolicy with
      | none => rw [hrun] at h; simp at h
      | some r =>
        rw [hrun] at h
        simp only [Option.map_some', Prod.mk.injEq, Except.ok.injEq,
          Option.some.injEq] at h
        obtain ⟨⟨hv, hc⟩, hx, ha⟩ := h
        have hle := sgdLoop_count_le sq perms a.optimizer fuel 0 _ _ _ _ hrun hne
        have hMI : AdaGrad.MaxIterations a = a.optimizer.maxIterations := rfl
        rw [← hc, hMI]
        omega
  · intro h h0
    unfold AdaGrad.Optimize SGD.Optimize SGD.OptimizeFrom at h
    split at h
    · simp at h
    · cases hrun : sgdLoop sq perms a.optimizer fuel 0
          (a.optimizer.function.fullEvaluate x) x
          a.optimizer.updatePolicy with
      | none => rw [hrun] at h; simp at h
      | some r =>
        rw [hrun] at h
        simp only [Option.map_some', Prod.mk.injEq, Except.ok.injEq,
          Option.some.injEq] at h
        obtain ⟨⟨hv, hc⟩, hx, ha⟩ := h
        rcases sgdLoop_count sq perms a.optimizer fuel 0 _ _ _ _ hrun
          with hd | ⟨hne, hm⟩
        · exact hc ▸ hd
        · exact absurd h0 hne
  · intro fuel2 y
    have h0 : sgdLoop sqZero perms0 aDiv.optimizer fuel2 0
        (aDiv.optimizer.function.fullEvaluate y) y
        aDiv.optimizer.updatePolicy = none :=
      divLoop_none fuel2 0 y aDiv.optimizer.updatePolicy rfl
    unfold AdaGrad.Optimize SGD.Optimize SGD.OptimizeFrom
    rw [if_neg (by norm_num [aDiv, AdaGrad.new, divObj])]
    rw [h0]
    rfl
  · with_unfolding_all rfl

/-- Witness for C5: the concrete run of `a0` ends after 2 updates, within
its nonzero limit of 5. -/
theorem maxIterations_bounds_updates_and_zero_unbounded_witness :
    AdaGrad.MaxIterations a0 ≠ 0 ∧ 2 ≤ AdaGrad.MaxIterations a0 :=
  ⟨by decide,
   (maxIterations_bounds_updates_and_zero_unbounded 1 sq0 perms0 10 a0 x0
      _ 2 _ _).1 (by with_unfolding_all rfl) (by decide)⟩

/-- C6: the defaulted constructor yields stepSize 0.01, epsilon 1e-8,
maxIterations 100000, tolerance 1e-5 and shuffling enabled. -/
theorem adaGrad_default_configuration (d : ℕ) (j : ShadowJunk d)
    (f : Objective d) :
    (AdaGrad.newDefault j f).StepSize = 1 / 100
    ∧ (AdaGrad.newDefault j f).Epsilon = 1 / 100000000
    ∧ (AdaGrad.newDefault j f).MaxIterations = 100000
    ∧ (AdaGrad.newDefault j f).Tolerance = 1 / 100000
    ∧ (AdaGrad.newDefault j f).Shuffle = true :=
  ⟨rfl, rfl, rfl, rfl, rfl⟩

/-- C7: every configuration parameter is readable and independently
mutable through its accessor — each setter changes exactly its own getter —
writing through `Epsilon()` is the epsilon the update policy subsequently
uses in its denominator, and `Optimize` itself never changes any
configuration parameter, so accessor mutation is the only way the
configuration changes between runs. -/
theorem adaGrad_accessors_independent (d : ℕ) (a : AdaGrad d)
    (v w tl : ℚ) (m : ℕ) (b : Bool) (sq : ℚ → ℚ) (x g : Vec d) (k : Fin d)
    (perms : ℕ → ℕ → ℕ) (fuel : ℕ) (y : Vec d)
    (res : Except SGDError (ℚ × ℕ)) (y' : Vec d) (a' : AdaGrad d) :
    ((a.setEpsilon v).Epsilon = v
      ∧ (a.setEpsilon v).StepSize = a.StepSize
      ∧ (a.setEpsilon v).MaxIterations = a.MaxIterations
      ∧ (a.setEpsilon v).Tolerance = a.Tolerance
      ∧ (a.setEpsilon v).Shuffle = a.Shuffle)
    ∧ (AdaGradUpdate.update sq (a.setEpsilon v).optimizer.stepSize
          (a.setEpsilon v).optimizer.updatePolicy x g).2 k
        = x k - a.StepSize * g k
            / (sq (a.optimizer.updatePolicy.accumulator k + g k ^ 2) + v)
    ∧ ((a.setStepSize w).StepSize = w
      ∧ (a.setStepSize w).Epsilon = a.Epsilon
      ∧ (a.setStepSize w).MaxIterations = a.MaxIterations
      ∧ (a.setStepSize w).Tolerance = a.Tolerance
      ∧ (a.setStepSize w).Shuffle = a.Shuffle)
    ∧ ((a.setMaxIterations m).MaxIterations = m
      ∧ (a.setMaxIterations m).StepSize = a.StepSize
      ∧ (a.setMaxIterations m).Epsilon = a.Epsilon
      ∧ (a.setMaxIterations m).Tolerance = a.Tolerance
      ∧ (a.setMaxIterations m).Shuffle = a.Shuffle)
    ∧ ((a.setTolerance tl).Tolerance = tl
      ∧ (a.setTolerance tl).StepSize = a.StepSize
      ∧ (a.setTolerance tl).Epsilon = a.Epsilon
      ∧ (a.setTolerance tl).MaxIterations = a.MaxIterations
      ∧ (a.setTolerance tl).Shuffle = a.Shuffle)
    ∧ ((a.setShuffle b).Shuffle = b
      ∧ (a.setShuffle b).StepSize = a.StepSize
      ∧ (a.setShuffle b).Epsilon = a.Epsilon
      ∧ (a.setShuffle b).MaxIterations = a.MaxIterations
      ∧ (a.setShuffle b).Tolerance = a.Tolerance)
    ∧ (AdaGrad.Optimize sq perms fuel a y = some (res, y', a') →
        a'.StepSize = a.StepSize ∧ a'.Epsilon = a.Epsilon
        ∧ a'.MaxIterations = a.MaxIterations
        ∧ a'.Tolerance = a.Tolerance ∧ a'.Shuffle = a.Shuffle) := by
  refine ⟨⟨rfl, rfl, rfl, rfl, rfl⟩, rfl, ⟨rfl, rfl, rfl, rfl, rfl⟩,
    ⟨rfl, rfl, rfl, rfl, rfl⟩, ⟨rfl, rfl, rfl, rfl, rfl⟩,
    ⟨rfl, rfl, rfl, rfl, rfl⟩, ?_⟩
  intro h
  unfold AdaGrad.Optimize SGD.Optimize SGD.OptimizeFrom at h
  split at h
  · simp only [Option.map_some', Prod.mk.injEq, Option.some.injEq] at h
    obtain ⟨hres, hy, ha⟩ := h
    rw [← ha]
    exact ⟨rfl, rfl, rfl, rfl, rfl⟩
  · cases hrun : sgdLoop sq perms a.optimizer fuel 0
        (a.optimizer.function.fullEvaluate y) y
        a.optimizer.updatePolicy with
    | none => rw [hrun] at h; simp at h
    | some r =>
      rw [hrun] at h
      simp only [Option.map_some', Prod.mk.injEq, Option.some.injEq] at h
      obtain ⟨hres, hy, ha⟩ := h
      obtain ⟨l, hl⟩ := sgdLoop_policy_applyAll sq perms a.optimizer
        fuel 0 _ _ _ _ hrun
      rw [← ha]
      refine ⟨rfl, ?_, rfl, rfl, rfl⟩
      show r.policy.epsilon = a.optimizer.updatePolicy.epsilon
      rw [hl, applyAll_epsilon]

/-- Witness for C7: the configuration of `a0` survives its concrete
`Optimize` run unchanged. -/
theorem adaGrad_accessors_independent_witness :
    AdaGrad.StepSize a0 = AdaGrad.StepSize a0
    ∧ AdaGrad.Epsilon a0 = AdaGrad.Epsilon a0
    ∧ AdaGrad.MaxIterations a0 = AdaGrad.MaxIterations a0
    ∧ AdaGrad.Tolerance a0 = AdaGrad.Tolerance a0
    ∧ AdaGrad.Shuffle a0 = AdaGrad.Shuffle a0 :=
  (adaGrad_accessors_independent 1 a0 0 0 0 0 false sq0 x0 x0 0 perms0 10
      x0 _ _ _).2.2.2.2.2.2 (by with_unfolding_all rfl)

/-- C8: with shuffling disabled the optimizer does not depend on the
randomness source at all, so repeated invocations of `Optimize` from the
same starting point return identical values, final iterates and states. -/
theorem optimize_deterministic_without_shuffle (d : ℕ) (sq : ℚ → ℚ)
    (p1 p2 : ℕ → ℕ → ℕ) (fuel : ℕ) (a : AdaGrad d) (x : Vec d)
    (h : a.Shuffle = false) :
    AdaGrad.Optimize sq p1 fuel a x = AdaGrad.Optimize sq p2 fuel a x := by
  unfold AdaGrad.Optimize SGD.Optimize SGD.OptimizeFrom
  rw [sgdLoop_shuffle_false sq p1 p2 a.optimizer h fuel 0
    (a.optimizer.function.fullEvaluate x) x a.optimizer.updatePolicy]

/-- Witness for C8: the non-shuffling `a0` gives the same run under two
different permutation streams. -/
theorem optimize_deterministic_without_shuffle_witness :
    AdaGrad.Shuffle a0 = false
    ∧ AdaGrad.Optimize sq0 perms0 10 a0 x0
        = AdaGrad.Optimize sq0 permsAlt 10 a0 x0 :=
  ⟨rfl,
   optimize_deterministic_without_shuffle 1 sq0 perms0 permsAlt 10 a0 x0 rfl⟩

/-- The state of `a0` after its two-update run: epsilon unchanged, the
accumulator advanced by the two squared gradients. -/
def a0Run2 : AdaGrad 1 :=
  { a0 with optimizer :=
    { a0.optimizer with updatePolicy := ⟨1, fun _ => 1 + 0 ^ 2 + 0 ^ 2⟩ } }

/-- C9: any call of `Optimize` starts its loop from the policy state stored
in the instance; on success, the stored policy of the returned instance is
the loop's final policy, which arises from the initial one by update
applications only (the accumulator is never reset inside a run); and only
constructing a new instance resets the policy to the epsilon floor. -/
theorem optimize_reuses_accumulator_across_calls (d : ℕ) (sq : ℚ → ℚ)
    (perms : ℕ → ℕ → ℕ) (fuel : ℕ) (a : AdaGrad d) (x : Vec d) (v : ℚ)
    (c : ℕ) (x' : Vec d) (a' : AdaGrad d) (j : ShadowJunk d)
    (f : Objective d) (st eps : ℚ) (mi : ℕ) (tl : ℚ) (sh : Bool) :
    (∀ (perms2 : ℕ → ℕ → ℕ) (fuel2 : ℕ) (x2 : Vec d) (b : AdaGrad d),
        AdaGrad.Optimize sq perms2 fuel2 b x2
          = AdaGrad.OptimizeWith sq perms2 fuel2 b
              b.optimizer.updatePolicy x2)
    ∧ (AdaGrad.Optimize sq perms fuel a x = some (.ok (v, c), x', a') →
        (∃ r : RunResult d,
          sgdLoop sq perms a.optimizer fuel 0
              (a.optimizer.function.fullEvaluate x) x
              a.optimizer.updatePolicy = some r
            ∧ a'.optimizer.updatePolicy = r.policy)
        ∧ ∃ l, a'.optimizer.updatePolicy
            = AdaGradUpdate.applyAll sq a.optimizer.stepSize
                a.optimizer.updatePolicy l)
    ∧ (AdaGrad.new j f st eps mi tl sh).optimizer.updatePolicy
        = AdaGradUpdate.init d eps := by
  refine ⟨fun perms2 fuel2 x2 b => rfl, ?_, rfl⟩
  intro h
  unfold AdaGrad.Optimize SGD.Optimize SGD.OptimizeFrom at h
  split at h
  · simp at h
  · cases hrun : sgdLoop sq perms a.optimizer fuel 0
        (a.optimizer.function.fullEvaluate x) x
        a.optimizer.updatePolicy with
    | none => rw [hrun] at h; simp at h
    | some r =>
      rw [hrun] at h
      simp only [Option.map_some', Prod.mk.injEq, Except.ok.injEq,
        Option.some.injEq] at h
      obtain ⟨hres, hx, ha⟩ := h
      obtain ⟨l, hl⟩ := sgdLoop_policy_applyAll sq perms a.optimizer
        fuel 0 _ _ _ _ hrun
      constructor
      · exact ⟨r, rfl, by rw [← ha]⟩
      · exact ⟨l, by rw [← ha]; exact hl⟩

/-- Witness for C9: the concrete run of `a0` ends in the stored state
`a0Run2`, whose policy is the loop's final policy and an update-fold of the
initial one. -/
theorem optimize_reuses_accumulator_across_calls_witness :
    (∃ r : RunResult 1,
      sgdLoop sq0 perms0 a0.optimizer 10 0
          (a0.optimizer.function.fullEvaluate x0) x0
          a0.optimizer.updatePolicy = some r
        ∧ a0Run2.optimizer.updatePolicy = r.policy)
    ∧ ∃ l, a0Run2.optimizer.updatePolicy
        = AdaGradUpdate.applyAll sq0 a0.optimizer.stepSize
            a0.optimizer.updatePolicy l :=
  (optimize_reuses_accumulator_across_calls 1 sq0 perms0 10 a0 x0 _ 2 _
    a0Run2 junk0 oneObj 0 0 0 0 false).2.1 (by with_unfolding_all rfl)

/-- C10: the wrapper's observable behaviour is fully determined by the
inner `SGD` object built at construction: `Optimize` returns exactly the
inner optimizer's result on the iterate, every accessor reads the inner
optimizer, instances built from the same arguments but different
indeterminate shadow contents agree on every observable except
`Function()`, the constructor copies the indeterminate contents into the
shadow members unchanged, and `Function()` returns the shadow `function`
member — never the objective supplied at construction. -/
theorem adaGrad_wrapper_determined_by_inner_sgd (d : ℕ)
    (j j2 : ShadowJunk d) (f : Objective d) (st eps : ℚ) (mi : ℕ)
    (tl : ℚ) (sh : Bool) (sq : ℚ → ℚ) (perms : ℕ → ℕ → ℕ) (fuel : ℕ)
    (x : Vec d) (a : AdaGrad d) :
    (AdaGrad.Optimize sq perms fuel a x
        = (SGD.Optimize sq perms fuel a.optimizer x).map
            (fun r => (r.1, r.2.1, { a with optimizer := r.2.2 })))
    ∧ (a.StepSize = a.optimizer.stepSize
      ∧ a.Epsilon = a.optimizer.updatePolicy.epsilon
      ∧ a.MaxIterations = a.optimizer.maxIterations
      ∧ a.Tolerance = a.optimizer.tolerance
      ∧ a.Shuffle = a.optimizer.shuffle)
    ∧ (AdaGrad.new j f st eps mi tl sh).optimizer
        = (AdaGrad.new j2 f st eps mi tl sh).optimizer
    ∧ ((AdaGrad.Optimize sq perms fuel
            (AdaGrad.new j f st eps mi tl sh) x).map (fun r => (r.1, r.2.1))
        = (AdaGrad.Optimize sq perms fuel
            (AdaGrad.new j2 f st eps mi tl sh) x).map (fun r => (r.1, r.2.1)))
    ∧ ((AdaGrad.new j f st eps mi tl sh).StepSize
          = (AdaGrad.new j2 f st eps mi tl sh).StepSize
      ∧ (AdaGrad.new j f st eps mi tl sh).Epsilon
          = (AdaGrad.new j2 f st eps mi tl sh).Epsilon
      ∧ (AdaGrad.new j f st eps mi tl sh).MaxIterations
          = (AdaGrad.new j2 f st eps mi tl sh).MaxIterations
      ∧ (AdaGrad.new j f st eps mi tl sh).Tolerance
          = (AdaGrad.new j2 f st eps mi tl sh).Tolerance
      ∧ (AdaGrad.new j f st eps mi tl sh).Shuffle
          = (AdaGrad.new j2 f st eps mi tl sh).Shuffle)
    ∧ (AdaGrad.new j f st eps mi tl sh).Function = j.function
    ∧ ((AdaGrad.new j f st eps mi tl sh).function = j.function
      ∧ (AdaGrad.new j f st eps mi tl sh).stepSize = j.stepSize
      ∧ (AdaGrad.new j f st eps mi tl sh).epsilon = j.epsilon
      ∧ (AdaGrad.new j f st eps mi tl sh).maxIterations = j.maxIterations
      ∧ (AdaGrad.new j f st eps mi tl sh).tolerance = j.tolerance
      ∧ (AdaGrad.new j f st eps mi tl sh).shuffle = j.shuffle) := by
  refine ⟨rfl, ⟨rfl, rfl, rfl, rfl, rfl⟩, rfl, ?_, ⟨rfl, rfl, rfl, rfl, rfl⟩,
    rfl, ⟨rfl, rfl, rfl, rfl, rfl, rfl⟩⟩
  unfold AdaGrad.Optimize
  cases h2 : SGD.Optimize sq perms fuel
      (AdaGrad.new j2 f st eps mi tl sh).optimizer x with
  | none =>
    rw [show SGD.Optimize sq perms fuel
        (AdaGrad.new j f st eps mi tl sh).optimizer x
      = SGD.Optimize sq perms fuel
        (AdaGrad.new j2 f st eps mi tl sh).optimizer x from rfl, h2]
    rfl
  | some r =>
    rw [show SGD.Optimize sq perms fuel
        (AdaGrad.new j f st eps mi tl sh).optimizer x
      = SGD.Optimize sq perms fuel
        (AdaGrad.new j2 f st eps mi tl sh).optimizer x from rfl, h2]
    rfl
